import Mathlib

/-!
Shallow embedding of the VALORE NIL simulation dashboard code and of the
synthetic behavioral-signal engine contract it consumes.

Parts modelled directly from source files:
* the emulation overlay tick loop of `ExperienceDashboard.tsx` (lines 562-600),
* the bounded message buffer of `AgentStream.tsx` (`MAX_MESSAGES`, lines 123-135),
* the `loadModeData` mode switcher of `ExperienceDashboard.tsx` (lines 370-413),
* the `selectProgram` handler of the static simulation site script.

The synthetic engine proper (seeded random source, raw signal generator,
composite scores, fairness, valuation, update scheduler, query interface)
lives in the backend service that is not part of this source tree; those
definitions are modelled from the specification and carry doc comments
starting with `Modelled from the spec:`.
-/

namespace Valore

/-- Saturating clip of a rational into the interval `[lo, hi]`; the generator
spec requires every appended point to be "clipped to the declared bound"
and clipping to be saturating, not wrapping. -/
def clip (lo hi x : ℚ) : ℚ := max lo (min hi x)

/-- Floor of `r * n` as a natural index; this is how the overlay loop turns a
`Math.random()` draw `r` in `[0,1)` into an index into a list of length `n`
(`Math.floor(Math.random() * list.length)`). -/
def drawIdx (r : ℚ) (n : ℕ) : ℕ := (Int.floor (r * (n : ℚ))).toNat

/-- One athlete entry inside the dashboard's `agentEntriesByAgent` map: the
athlete id and its per-metric values. -/
structure OverlayEntry where
  athleteId : String
  metrics : List (String × ℚ)
deriving DecidableEq

/-- One element of the dashboard's `agentConfigs` table: the agent id and the
keys of its displayed metrics. -/
structure OverlayCfg where
  id : String
  metricKeys : List String
deriving DecidableEq

/-- The observable outcome of one overlay tick: which agent, athlete and
metric were chosen and the clamped value written into `agentOverlays`. -/
structure OverlayEvent where
  agentId : String
  athleteId : String
  metricKey : String
  value : ℚ
deriving DecidableEq

/-- One tick of the emulation update loop of `ExperienceDashboard.tsx`
(lines 566-598), with the four `Math.random()` draws of the tick made
explicit as `r1` (agent pick), `r2` (entry pick), `r3` (metric pick) and
`r4` (value delta).  Returns `none` when the tick bails out early, exactly
at the early returns of the source. -/
def agentTick (agents : List (String × List OverlayEntry)) (configs : List OverlayCfg)
    (r1 r2 r3 r4 : ℚ) : Option OverlayEvent :=
  let playable := agents.filter (fun p => decide (p.2 ≠ []))
  if playable = [] then none else
  match playable.get? (drawIdx r1 playable.length) with
  | none => none
  | some (agentId, entries) =>
    match configs.find? (fun c => c.id = agentId) with
    | none => none
    | some cfg =>
      match entries.get? (drawIdx r2 entries.length) with
      | none => none
      | some entry =>
        if cfg.metricKeys = [] then none else
        match cfg.metricKeys.get? (drawIdx r3 cfg.metricKeys.length) with
        | none => none
        | some mkey =>
          let base := (entry.metrics.lookup mkey).getD 0
          let delta := (r4 - 1/2) * (8/100)
          let newValue := min 1 (max 0 (base + delta))
          some ⟨agentId, entry.athleteId, mkey, newValue⟩

/-- Runs `n` ticks of the overlay loop, with the ambient `Math.random()`
source made explicit as the stream `s`; tick `i` consumes the four draws
`s (4*i)` through `s (4*i+3)`. -/
def runTicks (agents : List (String × List OverlayEntry)) (configs : List OverlayCfg)
    (s : ℕ → ℚ) : ℕ → List OverlayEvent
  | 0 => []
  | n + 1 =>
    runTicks agents configs s n ++
      (agentTick agents configs (s (4 * n)) (s (4 * n + 1)) (s (4 * n + 2)) (s (4 * n + 3))).toList

/-- Number of events of a run that updated the given athlete. -/
def countFor (aid : String) (events : List OverlayEvent) : ℕ :=
  (events.filter (fun e => e.athleteId = aid)).length

/-- Concrete roster used in counterexamples: one playable agent feed with two
tracked athletes, mirroring the shape of the dashboard's `social_media`
agent entries. -/
def demoAgents : List (String × List OverlayEntry) :=
  [("social_media",
    [⟨"athlete_a", [("engagement_authenticity", 1/2), ("sentiment_intensity", 3/5)]⟩,
     ⟨"athlete_b", [("engagement_authenticity", 2/5), ("sentiment_intensity", 1/2)]⟩])]

/-- Concrete agent configuration matching `agentConfigs[0]` of the dashboard. -/
def demoConfigs : List OverlayCfg :=
  [⟨"social_media",
    ["engagement_authenticity", "sentiment_intensity", "virality_potential",
     "platform_fit", "authenticity_detection"]⟩]

/-- The `MAX_MESSAGES` constant of `AgentStream.tsx` (line 6). -/
def MAX_MESSAGES : ℕ := 120

/-- Append-then-trim of a bounded buffer: append `d`, then drop entries from
the front when the capacity is exceeded.  This is the shape shared by the
`AgentStream` message buffer (`next.splice(0, next.length - MAX_MESSAGES)`)
and the rolling windows of the raw signal generator. -/
def pushTrim {α : Type} (cap : ℕ) (prev : List α) (d : α) : List α :=
  let next := prev ++ [d]
  if cap < next.length then next.drop (next.length - cap) else next

/-- The message-buffer update of `AgentStream.tsx` lines 126-131. -/
def pushMessage {α : Type} (prev : List α) (d : α) : List α :=
  pushTrim MAX_MESSAGES prev d

/-- Modelled from the spec: the fixed length (30 entries) of the rolling
sentiment window of `RawSignalState`. -/
def windowLen : ℕ := 30

/-- Modelled from the spec: the per-entity mutable raw signal state kept by
the engine (the backend generator is not part of this source tree); kept to
the bounded rolling series and scalar modifiers the claims quantify over. -/
structure RawSignalState where
  sentimentSeries : List ℚ
  shareRateSeries : List ℚ
  contentSimilarity : ℚ
  stabilityIndex : ℚ
  scheduleVolatility : ℚ
deriving DecidableEq

/-- Modelled from the spec: one `advance` step of the Raw Signal Generator —
append `previous + noise(volatility)` to each rolling series, clipped
saturating to the declared bound (`[-1,1]` for sentiment, `[0,1]` for share
rate), dropping the oldest point beyond the fixed window length. -/
def advance (vol : ℚ) (s : RawSignalState) (d1 d2 : ℚ) : RawSignalState :=
  let prevSent := (s.sentimentSeries.getLast?).getD 0
  let newSent := clip (-1) 1 (prevSent + (d1 - 1/2) * vol)
  let prevShare := (s.shareRateSeries.getLast?).getD 0
  let newShare := clip 0 1 (prevShare + (d2 - 1/2) * vol)
  { s with
      sentimentSeries := pushTrim windowLen s.sentimentSeries newSent
      shareRateSeries := pushTrim windowLen s.shareRateSeries newShare }

/-- Modelled from the spec: the Seeded Random Source — a reproducible
pseudo-random stream keyed by an integer seed (a 32-bit linear congruential
generator; the spec pins reproducibility, not the algorithm). -/
def lcgNext (s : ℕ) : ℕ := (1664525 * s + 1013904223) % 4294967296

/-- State of the seeded stream after `n + 1` steps from the seed. -/
def lcgState (seed : ℕ) : ℕ → ℕ
  | 0 => lcgNext (seed % 4294967296)
  | n + 1 => lcgNext (lcgState seed n)

/-- Draw `n` of the seeded stream, scaled into `[0,1)`. -/
def lcgDraw (seed n : ℕ) : ℚ := (lcgState seed n : ℚ) / 4294967296

/-- Modelled from the spec: the raw signal evolution of one entity over `n`
ticks, drawing noise from the entity's seeded stream (two draws per tick). -/
def runSignal (vol : ℚ) (seed : ℕ) (init : RawSignalState) : ℕ → RawSignalState
  | 0 => init
  | n + 1 => advance vol (runSignal vol seed init n) (lcgDraw seed (2 * n)) (lcgDraw seed (2 * n + 1))

/-- Bounds invariant of a raw signal state: every sentiment point in
`[-1,1]`, every share-rate point in `[0,1]`. -/
def SignalBounded (s : RawSignalState) : Prop :=
  (∀ x ∈ s.sentimentSeries, -1 ≤ x ∧ x ≤ 1) ∧ (∀ x ∈ s.shareRateSeries, 0 ≤ x ∧ x ≤ 1)

/-- Mean of a rational series (0 for the empty series). -/
def meanQ (xs : List ℚ) : ℚ := if xs.length = 0 then 0 else xs.sum / (xs.length : ℚ)

/-- Modelled from the spec: the EI-style normalized composite score of an
entity's raw signal state (mean of the sentiment window mapped into
`[0,1]`); this is the per-entity score entering the cross-entity fairness
comparison. -/
def scoreOf (s : RawSignalState) : ℚ := clip 0 1 ((meanQ s.sentimentSeries + 1) / 2)

/-- Maximum of a list of scores (0 for the empty list; scores are
non-negative). -/
def maxScore (scores : List ℚ) : ℚ := scores.foldr max 0

/-- Modelled from the spec: the fairness index of one entity relative to the
population of its category — a parity ratio of the entity's score against
the population maximum (the division by the population maximum is the
division the spec's ComputationError taxonomy guards when the population
is degenerate, handled here by the zero test). -/
def fairnessOf (x : ℚ) (scores : List ℚ) : ℚ :=
  if maxScore scores = 0 then 1 else x / maxScore scores

/-- Modelled from the spec: `computeFairness` over the whole population — a
cross-entity computation receiving all tracked entities' states and
returning each entity's fairness index. -/
def computeFairness (pop : List RawSignalState) : List ℚ :=
  pop.map (fun s => fairnessOf (scoreOf s) (pop.map scoreOf))

/-- Modelled from the spec: the fixed-weight relationship composite — a
weighted sum of the five sub-scores with weights summing to 1. -/
def relationshipScore (ei fr cr li tc : ℚ) : ℚ :=
  (3/10) * ei + (1/5) * fr + (1/5) * cr + (3/20) * li + (3/20) * tc

/-- Modelled from the spec: the weighted uplift of the three top-level scores
entering the valuation (weights are a fixed constant table summing to 1). -/
def uplift (r a f : ℚ) : ℚ := (1/2) * r + (3/10) * a + (1/5) * f

/-- Modelled from the spec: `computeValuation` — baseline times one plus the
weighted uplift from the three scores, floored at zero. -/
def computeValuation (r a f baseline : ℚ) : ℚ :=
  max 0 (baseline * (1 + uplift r a f))

/-- An update event emitted by the scheduler: which entity, at which tick. -/
structure SchedEvent where
  entityId : String
  tick : ℕ
deriving DecidableEq

/-- An entity tracked by the scheduler. -/
structure SchedEntity where
  id : String
deriving DecidableEq

/-- Modelled from the spec: the per-entity, per-tick update computation, which
can fail (ComputationError, malformed config); `failing` is the set of
entity ids whose computation fails. -/
def computeUpdate (failing : List String) (e : SchedEntity) (t : ℕ) : Option SchedEvent :=
  if e.id ∈ failing then none else some ⟨e.id, t⟩

/-- Modelled from the spec: the Update Scheduler — on tick `t` it selects the
next entity round-robin, computes its update, and on failure skips that
entity and continues; a failure never stops the run. -/
def runSched (failing : List String) (roster : List SchedEntity) : ℕ → List SchedEvent
  | 0 => []
  | n + 1 =>
    runSched failing roster n ++
      (match roster.get? (n % roster.length) with
       | none => []
       | some e => (computeUpdate failing e n).toList)

/-- Events of a scheduler run that belong to the given entity id. -/
def eventsFor (id : String) (evs : List SchedEvent) : List SchedEvent :=
  evs.filter (fun e => e.entityId = id)

/-- Modelled from the spec: the immutable snapshot bundle held per entity by
the query interface (kept to its score fields). -/
structure Snapshot where
  entityId : String
  psrScore : ℚ
  authenticityScore : ℚ
  fairnessIndex : ℚ
  complianceRisk : ℚ
  valuationProjection : ℚ
deriving DecidableEq

/-- Result type of the query interface: a snapshot, or a structured
not-found value (never an exception, never an undefined value). -/
inductive SnapshotResult where
  | found (s : Snapshot)
  | notFound (id : String)
deriving DecidableEq

/-- Modelled from the spec: the default zero-state snapshot returned for a
rostered entity the scheduler has not updated yet. -/
def zeroSnapshot (id : String) : Snapshot := ⟨id, 0, 0, 0, 0, 0⟩

/-- Modelled from the spec: `getSnapshot` of the Overview/Query Interface — a
total function returning the stored snapshot, the zero-state default for a
rostered-but-uninitialized id, and a structured not-found result for an id
outside the roster. -/
def getSnapshot (roster : List String) (store : List (String × Snapshot))
    (id : String) : SnapshotResult :=
  if id ∈ roster then .found ((store.lookup id).getD (zeroSnapshot id)) else .notFound id

/-- The two data modes of the dashboard. -/
inductive DataMode where
  | simulation
  | emulation
deriving DecidableEq

/-- Display name of a mode, as interpolated into the error message. -/
def modeName : DataMode → String
  | .simulation => "simulation"
  | .emulation => "emulation"

/-- The slice of `ExperienceDashboard` component state touched by
`loadModeData` (payloads abstracted to opaque tokens). -/
structure DashState where
  dataMode : DataMode
  modeError : Option String
  modeLoading : Bool
  programData : List String
  scenarioData : List String
  metricsData : Option String
  syntheticOverview : Option String
deriving DecidableEq

/-- The responses of the four fetches of `loadModeData` when the awaited
`Promise.all` succeeds. -/
structure FetchSuccess where
  programsResp : List String
  scenariosResp : List String
  metricsResp : Option String
  syntheticResp : Option String
deriving DecidableEq

/-- The `loadModeData` transition of `ExperienceDashboard.tsx` lines 370-413:
loading set and error cleared on entry; on success all four payload states
and then `dataMode` are set; in the catch branch the error message is set
and `dataMode` is set only when it differs from the current mode, while the
payload states are left untouched; `finally` clears the loading flag. -/
def loadModeData (s : DashState) (mode : DataMode)
    (outcome : Except String FetchSuccess) : DashState :=
  let s0 := { s with modeLoading := true, modeError := none }
  match outcome with
  | .ok r =>
    { s0 with
        programData := r.programsResp
        scenarioData := r.scenariosResp
        metricsData := r.metricsResp
        syntheticOverview := r.syntheticResp
        dataMode := mode
        modeLoading := false }
  | .error msg =>
    let s1 := { s0 with
                  modeError := some ("Unable to load " ++ modeName mode ++ " data: " ++ msg) }
    let s2 := if mode ≠ s.dataMode then { s1 with dataMode := mode } else s1
    { s2 with modeLoading := false }

/-- A program of the static simulation site data. -/
structure SimProgram where
  id : String
deriving DecidableEq

/-- An athlete of the static simulation site data, owned by one program. -/
structure SimAthlete where
  id : String
  programId : String
deriving DecidableEq

/-- A matchup scenario of the static simulation site data. -/
structure SimScenario where
  id : String
  programId : String
deriving DecidableEq

/-- The mutable `state` object of the static site script plus its loaded
data arrays. -/
structure SimState where
  programs : List SimProgram
  athletes : List SimAthlete
  scenarios : List SimScenario
  selectedProgram : Option SimProgram
  selectedAthlete : Option SimAthlete
  selectedScenario : Option SimScenario
deriving DecidableEq

/-- The `selectProgram` handler of the static site script (lines 115-134):
find the program (bail out when unknown), set `selectedProgram`, set
`selectedAthlete` only when the program has a first athlete, set
`selectedScenario` only when a scenario references the program. -/
def selectProgram (st : SimState) (programId : String) : SimState :=
  match st.programs.find? (fun p => p.id = programId) with
  | none => st
  | some program =>
    let st1 := { st with selectedProgram := some program }
    let athletes := st.athletes.filter (fun a => a.programId = program.id)
    let st2 :=
      match athletes.head? with
      | some athlete => { st1 with selectedAthlete := some athlete }
      | none => st1
    match st.scenarios.find? (fun sc => sc.programId = program.id) with
    | some scenario => { st2 with selectedScenario := some scenario }
    | none => st2

end Valore

namespace Valore

lemma pushTrim_length_le_cap {α : Type} (cap : ℕ) (prev : List α) (d : α)
    (h : prev.length ≤ cap) : (pushTrim cap prev d).length ≤ cap := by
  unfold pushTrim
  by_cases hc : cap < (prev ++ [d]).length
  · simp only [hc, if_true, List.length_drop]
    omega
  · simp only [hc, if_false]
    simp only [List.length_append, List.length_singleton] at hc ⊢
    omega

lemma pushTrim_fifo {α : Type} (cap : ℕ) (prev : List α) (d : α)
    (hc : 0 < cap) (h : prev.length = cap) :
    pushTrim cap prev d = prev.drop 1 ++ [d] := by
  unfold pushTrim
  have hlen : (prev ++ [d]).length = cap + 1 := by simp [h]
  rw [if_pos (by omega)]
  rw [hlen]
  have h1 : cap + 1 - cap = 1 := by omega
  rw [h1, List.drop_append_of_le_length (by omega)]

lemma pushTrim_foldl_length_le {α : Type} (cap : ℕ) (ds : List α) (init : List α)
    (h : init.length ≤ cap) :
    (ds.foldl (fun acc d => pushTrim cap acc d) init).length ≤ cap := by
  induction ds generalizing init with
  | nil => simpa using h
  | cons d ds ih =>
    exact ih _ (pushTrim_length_le_cap cap init d h)

/-- C3.  Window invariant: the `AgentStream` message buffer never exceeds
`MAX_MESSAGES` after any sequence of appends from its empty initial state,
and when full the oldest message is the one dropped (FIFO); the rolling
signal series of the generator behave the same way at their fixed window
length. -/
theorem c3_window_bounds_fifo :
    (∀ (α : Type) (prev : List α) (d : α), prev.length ≤ MAX_MESSAGES →
      (pushMessage prev d).length ≤ MAX_MESSAGES) ∧
    (∀ (α : Type) (ds : List α),
      ((ds.foldl (fun acc d => pushMessage acc d) []).length ≤ MAX_MESSAGES)) ∧
    (∀ (α : Type) (prev : List α) (d : α), prev.length = MAX_MESSAGES →
      pushMessage prev d = prev.drop 1 ++ [d]) ∧
    (∀ (prev : List ℚ) (x : ℚ), prev.length ≤ windowLen →
      (pushTrim windowLen prev x).length ≤ windowLen) ∧
    (∀ (prev : List ℚ) (x : ℚ), prev.length = windowLen →
      pushTrim windowLen prev x = prev.drop 1 ++ [x]) := by
  refine ⟨?_, ?_, ?_, ?_, ?_⟩
  · intro α prev d h
    exact pushTrim_length_le_cap MAX_MESSAGES prev d h
  · intro α ds
    exact pushTrim_foldl_length_le MAX_MESSAGES ds [] (by simp)
  · intro α prev d h
    exact pushTrim_fifo MAX_MESSAGES prev d (by norm_num [MAX_MESSAGES]) h
  · intro prev x h
    exact pushTrim_length_le_cap windowLen prev x h
  · intro prev x h
    exact pushTrim_fifo windowLen prev x (by norm_num [windowLen]) h

/-- Witness for C3 at concrete inputs: a full 120-message buffer drops its
oldest entry on append, and a fresh buffer stays within the bound. -/
theorem c3_window_bounds_fifo_witness :
    pushMessage (List.replicate 120 (0 : ℕ)) 7 = (List.replicate 120 (0 : ℕ)).drop 1 ++ [7] ∧
    (pushMessage ([] : List ℕ) 7).length ≤ MAX_MESSAGES :=
  ⟨c3_window_bounds_fifo.2.2.1 ℕ (List.replicate 120 0) 7 (by simp [MAX_MESSAGES]),
   c3_window_bounds_fifo.1 ℕ [] 7 (by simp [MAX_MESSAGES])⟩

/-- C6.  Valuation formula: `computeValuation` is the baseline times one plus
the weighted uplift of the three scores, floored at zero — it is
non-negative always, equals the unfloored product whenever that product is
non-negative, and is zero exactly when the product would be negative. -/
theorem c6_valuation_formula (r a f b : ℚ) :
    0 ≤ computeValuation r a f b ∧
    (0 ≤ b * (1 + uplift r a f) → computeValuation r a f b = b * (1 + uplift r a f)) ∧
    (b * (1 + uplift r a f) < 0 → computeValuation r a f b = 0) :=
  ⟨le_max_left 0 _, fun h => max_eq_right h, fun h => max_eq_left h.le⟩

/-- Witness for C6: with all three scores at their maximum the valuation is
baseline times two, and a negative product is floored to zero. -/
theorem c6_valuation_formula_witness :
    computeValuation 1 1 1 4200000 = 4200000 * (1 + uplift 1 1 1) ∧
    computeValuation (-3) (-3) (-3) 1 = 0 :=
  ⟨(c6_valuation_formula 1 1 1 4200000).2.1 (by norm_num [uplift]),
   (c6_valuation_formula (-3) (-3) (-3) 1).2.2 (by norm_num [uplift])⟩

/-- C8.  Unknown-entity query: `getSnapshot` is a total function; an id
outside the roster yields the structured not-found result, and a rostered
id with no stored snapshot yields the default zero-state snapshot. -/
theorem c8_get_snapshot_total (roster : List String) (store : List (String × Snapshot))
    (id : String) :
    (id ∉ roster → getSnapshot roster store id = .notFound id) ∧
    (id ∈ roster → store.lookup id = none →
      getSnapshot roster store id = .found (zeroSnapshot id)) := by
  constructor
  · intro h
    simp [getSnapshot, h]
  · intro h hl
    simp [getSnapshot, h, hl]

/-- Witness for C8: querying a nonexistent id returns not-found; querying a
rostered but never-updated id returns the zero-state snapshot. -/
theorem c8_get_snapshot_total_witness :
    getSnapshot ["auburn_mbb"] [] "nonexistent_id" = .notFound "nonexistent_id" ∧
    getSnapshot ["auburn_mbb"] [] "auburn_mbb" = .found (zeroSnapshot "auburn_mbb") :=
  ⟨(c8_get_snapshot_total ["auburn_mbb"] [] "nonexistent_id").1 (by decide),
   (c8_get_snapshot_total ["auburn_mbb"] [] "auburn_mbb").2 (by decide) rfl⟩

/-- C9.  Mode switch is not atomic on failure: in the catch branch of
`loadModeData` the requested mode is still installed whenever it differs
from the current mode, while all four payload states keep their previous
values, and the error message is recorded — so mode and data can disagree
after an error. -/
theorem c9_mode_switch_failure_changes_mode (s : DashState) (mode : DataMode) (msg : String)
    (h : mode ≠ s.dataMode) :
    (loadModeData s mode (.error msg)).dataMode = mode ∧
    (loadModeData s mode (.error msg)).programData = s.programData ∧
    (loadModeData s mode (.error msg)).scenarioData = s.scenarioData ∧
    (loadModeData s mode (.error msg)).metricsData = s.metricsData ∧
    (loadModeData s mode (.error msg)).syntheticOverview = s.syntheticOverview ∧
    (loadModeData s mode (.error msg)).modeError =
      some ("Unable to load " ++ modeName mode ++ " data: " ++ msg) := by
  simp [loadModeData, h]

/-- Witness for C9: switching from simulation to emulation while every fetch
fails leaves the simulation payloads in place but flips the mode. -/
theorem c9_mode_switch_failure_changes_mode_witness :
    (loadModeData ⟨.simulation, none, false, ["auburn_mbb"], ["sc1"], some "m", none⟩
        .emulation (.error "Programs request failed")).dataMode = .emulation ∧
    (loadModeData ⟨.simulation, none, false, ["auburn_mbb"], ["sc1"], some "m", none⟩
        .emulation (.error "Programs request failed")).programData = ["auburn_mbb"] :=
  ⟨(c9_mode_switch_failure_changes_mode
      ⟨.simulation, none, false, ["auburn_mbb"], ["sc1"], some "m", none⟩
      .emulation "Programs request failed" (by decide)).1,
   (c9_mode_switch_failure_changes_mode
      ⟨.simulation, none, false, ["auburn_mbb"], ["sc1"], some "m", none⟩
      .emulation "Programs request failed" (by decide)).2.1⟩

/-- C10.  Stale cross-entity selection: when `selectProgram` finds the program
but no athlete and no scenario belong to it, the selected program is
updated while the previously selected athlete and scenario are left in
place. -/
theorem c10_select_program_stale (st : SimState) (pid : String) (p : SimProgram)
    (hp : st.programs.find? (fun q => q.id = pid) = some p)
    (ha : ∀ a ∈ st.athletes, a.programId ≠ p.id)
    (hs : ∀ sc ∈ st.scenarios, sc.programId ≠ p.id) :
    (selectProgram st pid).selectedProgram = some p ∧
    (selectProgram st pid).selectedAthlete = st.selectedAthlete ∧
    (selectProgram st pid).selectedScenario = st.selectedScenario := by
  have hfilter : st.athletes.filter (fun a => a.programId = p.id) = [] := by
    rw [List.filter_eq_nil_iff]
    intro a hmem
    simpa using ha a hmem
  have hfind : st.scenarios.find? (fun sc => sc.programId = p.id) = none := by
    rw [List.find?_eq_none]
    intro sc hmem
    simpa using hs sc hmem
  simp [selectProgram, hp, hfilter, hfind]

/-- Witness for C10: selecting a program whose roster has no athletes and no
scenarios keeps the athlete and scenario selected for another program. -/
theorem c10_select_program_stale_witness :
    (selectProgram
        ⟨[⟨"sac_state"⟩, ⟨"auburn_mbb"⟩], [⟨"ath1", "auburn_mbb"⟩], [⟨"sc1", "auburn_mbb"⟩],
          some ⟨"auburn_mbb"⟩, some ⟨"ath1", "auburn_mbb"⟩, some ⟨"sc1", "auburn_mbb"⟩⟩
        "sac_state").selectedProgram = some ⟨"sac_state"⟩ ∧
    (selectProgram
        ⟨[⟨"sac_state"⟩, ⟨"auburn_mbb"⟩], [⟨"ath1", "auburn_mbb"⟩], [⟨"sc1", "auburn_mbb"⟩],
          some ⟨"auburn_mbb"⟩, some ⟨"ath1", "auburn_mbb"⟩, some ⟨"sc1", "auburn_mbb"⟩⟩
        "sac_state").selectedAthlete = some ⟨"ath1", "auburn_mbb"⟩ := by
  have h := c10_select_program_stale
    ⟨[⟨"sac_state"⟩, ⟨"auburn_mbb"⟩], [⟨"ath1", "auburn_mbb"⟩], [⟨"sc1", "auburn_mbb"⟩],
      some ⟨"auburn_mbb"⟩, some ⟨"ath1", "auburn_mbb"⟩, some ⟨"sc1", "auburn_mbb"⟩⟩
    "sac_state" ⟨"sac_state"⟩ (by decide) (by decide) (by decide)
  exact ⟨h.1, h.2.1⟩

end Valore

namespace Valore

lemma maxScore_nonneg (scores : List ℚ) : 0 ≤ maxScore scores := by
  induction scores with
  | nil => simp [maxScore]
  | cons a l ih =>
    simp only [maxScore, List.foldr_cons] at *
    exact le_trans ih (le_max_right a _)

lemma le_maxScore_of_mem {x : ℚ} {scores : List ℚ} (h : x ∈ scores) : x ≤ maxScore scores := by
  induction scores with
  | nil => cases h
  | cons a l ih =>
    rcases List.mem_cons.mp h with rfl | hm
    · exact le_max_left _ _
    · simp only [maxScore, List.foldr_cons]
      exact le_trans (ih hm) (le_max_right a _)

lemma maxScore_replicate (n : ℕ) (c : ℚ) (hc : 0 ≤ c) :
    maxScore (List.replicate (n + 1) c) = c := by
  induction n with
  | zero => simp [maxScore, max_eq_left hc]
  | succ n ih =>
    rw [List.replicate_succ]
    simp only [maxScore, List.foldr_cons] at ih ⊢
    rw [ih, max_self]

lemma scoreOf_nonneg (s : RawSignalState) : 0 ≤ scoreOf s := le_max_left 0 _

lemma fairnessOf_self_replicate (n : ℕ) (c : ℚ) (hc : 0 ≤ c) :
    fairnessOf c (List.replicate (n + 1) c) = 1 := by
  unfold fairnessOf
  rw [maxScore_replicate n c hc]
  by_cases h0 : c = 0
  · simp [h0]
  · simp [h0, div_self h0]

/-- C5.  Fairness parity: when every entity of the category has the identical
raw signal state, `computeFairness` assigns every entity the fairness index
1 — the top of the range and the maximum over the population — so no entity
is penalized relative to any other. -/
theorem c5_fairness_parity (pop : List RawSignalState) (s : RawSignalState)
    (h : ∀ t ∈ pop, t = s) :
    computeFairness pop = List.replicate pop.length 1 ∧
    (pop ≠ [] → ∀ f ∈ computeFairness pop, f = maxScore (computeFairness pop)) := by
  have hscores : pop.map scoreOf = List.replicate pop.length (scoreOf s) := by
    have hcg : pop.map scoreOf = pop.map (fun _ => scoreOf s) :=
      List.map_congr_left (fun t ht => by rw [h t ht])
    rw [hcg, List.map_const']
  have hrep : computeFairness pop = List.replicate pop.length 1 := by
    unfold computeFairness
    rw [hscores]
    cases pop with
    | nil => simp
    | cons t0 rest =>
      have hone : ∀ t ∈ t0 :: rest,
          fairnessOf (scoreOf t) (List.replicate (t0 :: rest).length (scoreOf s)) = 1 := by
        intro t ht
        rw [h t ht]
        exact fairnessOf_self_replicate rest.length (scoreOf s) (scoreOf_nonneg s)
      rw [List.map_congr_left hone, List.map_const']
  refine ⟨hrep, fun hne f hf => ?_⟩
  rw [hrep] at hf ⊢
  cases pop with
  | nil => exact absurd rfl hne
  | cons t0 rest =>
    have h1 : f = 1 := List.eq_of_mem_replicate hf
    rw [h1, List.length_cons, maxScore_replicate rest.length 1 (by norm_num)]

/-- Witness for C5: a homogeneous two-athlete population gets fairness index
1 for both entities. -/
theorem c5_fairness_parity_witness :
    computeFairness [⟨[1/2, -1/4], [1/10], 1/2, 1/2, 1/4⟩, ⟨[1/2, -1/4], [1/10], 1/2, 1/2, 1/4⟩] =
      [1, 1] := by
  have h := c5_fairness_parity
    [⟨[1/2, -1/4], [1/10], 1/2, 1/2, 1/4⟩, ⟨[1/2, -1/4], [1/10], 1/2, 1/2, 1/4⟩]
    ⟨[1/2, -1/4], [1/10], 1/2, 1/2, 1/4⟩
    (by
      intro t ht
      rcases List.mem_cons.mp ht with h1 | h1
      · exact h1
      · simpa using h1)
  simpa using h.1

lemma eventsFor_append (id : String) (xs ys : List SchedEvent) :
    eventsFor id (xs ++ ys) = eventsFor id xs ++ eventsFor id ys := by
  simp [eventsFor, List.filter_append]

/-- C7.  Partial-failure isolation: entities whose per-tick computation fails
are skipped, while every other entity's events over the whole run are
exactly the events it gets in the failure-free run — a single entity's
failure never stops the scheduler for the others, at the failing tick or at
any later tick. -/
theorem c7_partial_failure_isolation (failing : List String) (roster : List SchedEntity)
    (n : ℕ) (id : String) :
    (id ∉ failing →
      eventsFor id (runSched failing roster n) = eventsFor id (runSched [] roster n)) ∧
    (id ∈ failing → eventsFor id (runSched failing roster n) = []) := by
  induction n with
  | zero => constructor <;> intro _ <;> simp [runSched, eventsFor]
  | succ n ih =>
    constructor
    · intro hgood
      rw [runSched, runSched, eventsFor_append, eventsFor_append, ih.1 hgood]
      congr 1
      cases hro : roster.get? (n % roster.length) with
      | none => rfl
      | some e =>
        by_cases he : e.id ∈ failing
        · have hne : ¬ e.id = id := fun hh => hgood (hh ▸ he)
          simp [computeUpdate, he, eventsFor, hne]
        · simp [computeUpdate, he, eventsFor]
    · intro hbad
      rw [runSched, eventsFor_append, ih.2 hbad]
      cases hro : roster.get? (n % roster.length) with
      | none => simp [eventsFor]
      | some e =>
        by_cases he : e.id ∈ failing
        · simp [computeUpdate, he, eventsFor]
        · have hne : ¬ e.id = id := fun hh => he (hh ▸ hbad)
          simp [computeUpdate, he, eventsFor, hne]

/-- Witness for C7: with a two-entity roster and one failing entity, four
ticks give the healthy entity exactly its failure-free events while the
failing entity is skipped throughout. -/
theorem c7_partial_failure_isolation_witness :
    eventsFor "auburn_mbb" (runSched ["gonzaga_wbb"] [⟨"auburn_mbb"⟩, ⟨"gonzaga_wbb"⟩] 4) =
      eventsFor "auburn_mbb" (runSched [] [⟨"auburn_mbb"⟩, ⟨"gonzaga_wbb"⟩] 4) ∧
    eventsFor "gonzaga_wbb" (runSched ["gonzaga_wbb"] [⟨"auburn_mbb"⟩, ⟨"gonzaga_wbb"⟩] 4) = [] :=
  ⟨(c7_partial_failure_isolation ["gonzaga_wbb"] [⟨"auburn_mbb"⟩, ⟨"gonzaga_wbb"⟩] 4
      "auburn_mbb").1 (by decide),
   (c7_partial_failure_isolation ["gonzaga_wbb"] [⟨"auburn_mbb"⟩, ⟨"gonzaga_wbb"⟩] 4
      "gonzaga_wbb").2 (by decide)⟩

end Valore

namespace Valore

lemma clip_mem (lo hi x : ℚ) (h : lo ≤ hi) : lo ≤ clip lo hi x ∧ clip lo hi x ≤ hi :=
  ⟨le_max_left lo _, max_le h (min_le_left hi x)⟩

lemma clip_of_hi_le (lo hi x : ℚ) (h : lo ≤ hi) (hx : hi ≤ x) : clip lo hi x = hi := by
  unfold clip
  rw [min_eq_left hx, max_eq_right h]

lemma clip_of_le_lo (lo hi x : ℚ) (hx : x ≤ lo) : clip lo hi x = lo := by
  unfold clip
  exact max_eq_left (le_trans (min_le_right hi x) hx)

lemma mem_pushTrim {α : Type} (cap : ℕ) (prev : List α) (d x : α)
    (h : x ∈ pushTrim cap prev d) : x ∈ prev ∨ x = d := by
  unfold pushTrim at h
  by_cases hc : cap < (prev ++ [d]).length
  · rw [if_pos hc] at h
    simpa using List.mem_of_mem_drop h
  · rw [if_neg hc] at h
    simpa using h

lemma signalBounded_advance (vol d1 d2 : ℚ) (s : RawSignalState) (h : SignalBounded s) :
    SignalBounded (advance vol s d1 d2) := by
  obtain ⟨hs, hr⟩ := h
  constructor
  · intro x hx
    simp only [advance] at hx
    rcases mem_pushTrim _ _ _ _ hx with hmem | rfl
    · exact hs x hmem
    · exact clip_mem (-1) 1 _ (by norm_num)
  · intro x hx
    simp only [advance] at hx
    rcases mem_pushTrim _ _ _ _ hx with hmem | rfl
    · exact hr x hmem
    · exact clip_mem 0 1 _ (by norm_num)

lemma agentTick_value_bounds (agents : List (String × List OverlayEntry))
    (configs : List OverlayCfg) (r1 r2 r3 r4 : ℚ) (e : OverlayEvent)
    (h : agentTick agents configs r1 r2 r3 r4 = some e) : 0 ≤ e.value ∧ e.value ≤ 1 := by
  simp only [agentTick] at h
  repeat' split at h
  all_goals first
    | exact Option.noConfusion h
    | · have he := Option.some.inj h
        rw [← he]
        exact ⟨le_min (by norm_num) (le_max_left 0 _), min_le_left 1 _⟩

/-- C2.  Bounds invariant with saturating clipping: the clip used on every
appended point saturates at the declared bound; for every seed, every
initial entity state and every tick count, every sentiment point of the
evolved state stays in `[-1,1]` and every share-rate point in `[0,1]`;
every value emitted into the overlay metric map stays in `[0,1]`; the
valuation projection is never negative; the fairness index and the
weighted relationship composite stay in `[0,1]`. -/
theorem c2_bounds_saturating_clipping :
    (∀ lo hi x : ℚ, lo ≤ hi →
      (lo ≤ clip lo hi x ∧ clip lo hi x ≤ hi) ∧
      (hi ≤ x → clip lo hi x = hi) ∧ (x ≤ lo → clip lo hi x = lo)) ∧
    (∀ (vol : ℚ) (seed : ℕ) (init : RawSignalState) (n : ℕ),
      SignalBounded init → SignalBounded (runSignal vol seed init n)) ∧
    (∀ (agents : List (String × List OverlayEntry)) (configs : List OverlayCfg)
      (r1 r2 r3 r4 : ℚ) (e : OverlayEvent),
      agentTick agents configs r1 r2 r3 r4 = some e → 0 ≤ e.value ∧ e.value ≤ 1) ∧
    (∀ r a f b : ℚ, 0 ≤ computeValuation r a f b) ∧
    (∀ (x : ℚ) (scores : List ℚ), 0 ≤ x → x ∈ scores →
      0 ≤ fairnessOf x scores ∧ fairnessOf x scores ≤ 1) ∧
    (∀ ei fr cr li tc : ℚ, 0 ≤ ei → ei ≤ 1 → 0 ≤ fr → fr ≤ 1 → 0 ≤ cr → cr ≤ 1 →
      0 ≤ li → li ≤ 1 → 0 ≤ tc → tc ≤ 1 →
      0 ≤ relationshipScore ei fr cr li tc ∧ relationshipScore ei fr cr li tc ≤ 1) := by
  refine ⟨?_, ?_, ?_, ?_, ?_, ?_⟩
  · intro lo hi x h
    exact ⟨clip_mem lo hi x h, clip_of_hi_le lo hi x h, clip_of_le_lo lo hi x⟩
  · intro vol seed init n hinit
    induction n with
    | zero => exact hinit
    | succ n ih => exact signalBounded_advance vol _ _ _ ih
  · exact agentTick_value_bounds
  · intro r a f b
    exact le_max_left 0 _
  · intro x scores hx hmem
    unfold fairnessOf
    by_cases h0 : maxScore scores = 0
    · rw [if_pos h0]
      norm_num
    · have hm : 0 < maxScore scores := lt_of_le_of_ne (maxScore_nonneg scores) (Ne.symm h0)
      rw [if_neg h0]
      constructor
      · exact div_nonneg hx (maxScore_nonneg scores)
      · rw [div_le_one hm]
        exact le_maxScore_of_mem hmem
  · intro ei fr cr li tc h1 h2 h3 h4 h5 h6 h7 h8 h9 h10
    unfold relationshipScore
    constructor
    · have t1 : 0 ≤ (3/10 : ℚ) * ei := mul_nonneg (by norm_num) h1
      have t2 : 0 ≤ (1/5 : ℚ) * fr := mul_nonneg (by norm_num) h3
      have t3 : 0 ≤ (1/5 : ℚ) * cr := mul_nonneg (by norm_num) h5
      have t4 : 0 ≤ (3/20 : ℚ) * li := mul_nonneg (by norm_num) h7
      have t5 : 0 ≤ (3/20 : ℚ) * tc := mul_nonneg (by norm_num) h9
      linarith
    · have t1 : (3/10 : ℚ) * ei ≤ 3/10 := by nlinarith
      have t2 : (1/5 : ℚ) * fr ≤ 1/5 := by nlinarith
      have t3 : (1/5 : ℚ) * cr ≤ 1/5 := by nlinarith
      have t4 : (3/20 : ℚ) * li ≤ 3/20 := by nlinarith
      have t5 : (3/20 : ℚ) * tc ≤ 3/20 := by nlinarith
      linarith

/-- Witness for C2: the clip saturates at concrete out-of-range inputs, a
three-tick seeded run from an empty state is bounded, and a concrete
fairness ratio is in range. -/
theorem c2_bounds_saturating_clipping_witness :
    clip (-1) 1 (5 : ℚ) = 1 ∧ clip (-1) 1 (-3 : ℚ) = -1 ∧
    SignalBounded (runSignal (1/4) 4242 ⟨[], [], 0, 0, 0⟩ 3) ∧
    0 ≤ fairnessOf (1/2) [1/2, 1] ∧ fairnessOf (1/2) [1/2, 1] ≤ 1 := by
  refine ⟨(c2_bounds_saturating_clipping.1 (-1) 1 5 (by norm_num)).2.1 (by norm_num),
    (c2_bounds_saturating_clipping.1 (-1) 1 (-3) (by norm_num)).2.2 (by norm_num),
    c2_bounds_saturating_clipping.2.1 (1/4) 4242 ⟨[], [], 0, 0, 0⟩ 3 ?_,
    (c2_bounds_saturating_clipping.2.2.2.2.1 (1/2) [1/2, 1] (by norm_num) (by norm_num)).1,
    (c2_bounds_saturating_clipping.2.2.2.2.1 (1/2) [1/2, 1] (by norm_num) (by norm_num)).2⟩
  constructor <;> intro x hx <;> simp at hx

end Valore

namespace Valore

lemma agentTick_demo_zero :
    agentTick demoAgents demoConfigs 0 0 0 0 =
      some ⟨"social_media", "athlete_a", "engagement_authenticity", 23/50⟩ := by
  simp [agentTick, demoAgents, demoConfigs, drawIdx, List.lookup]
  norm_num

lemma runTicks_demo_zero (n : ℕ) :
    runTicks demoAgents demoConfigs (fun _ => 0) n =
      List.replicate n ⟨"social_media", "athlete_a", "engagement_authenticity", 23/50⟩ := by
  induction n with
  | zero => rfl
  | succ n ih =>
    simp only [runTicks, ih]
    rw [agentTick_demo_zero]
    simp only [Option.toList_some]
    rw [← List.replicate_succ']

lemma agentTick_demo_half :
    agentTick demoAgents demoConfigs (1/2) (1/2) (1/2) (1/2) =
      some ⟨"social_media", "athlete_b", "virality_potential", 0⟩ := by
  simp [agentTick, demoAgents, demoConfigs, drawIdx, List.lookup]
  norm_num
  simp [List.lookup]

lemma countFor_replicate_ne (aid : String) (e : OverlayEvent) (n : ℕ)
    (h : ¬ e.athleteId = aid) : countFor aid (List.replicate n e) = 0 := by
  induction n with
  | zero => rfl
  | succ n ih =>
    rw [List.replicate_succ]
    simp only [countFor, List.filter_cons] at ih ⊢
    simp [h, ih]

/-- C1 fails on the code: the in-repo update loop draws every choice from the
ambient `Math.random()` source and takes no seed, so two runs that differ
only in the ambient draws emit different event sequences — here two
one-tick runs whose draws are all `0` respectively all `1/2`. -/
theorem c1_ambient_dependence_counterexample :
    runTicks demoAgents demoConfigs (fun _ => 0) 1 ≠
      runTicks demoAgents demoConfigs (fun _ => (1 : ℚ)/2) 1 := by
  have h1 : runTicks demoAgents demoConfigs (fun _ => 0) 1 =
      [⟨"social_media", "athlete_a", "engagement_authenticity", 23/50⟩] := by
    rw [runTicks_demo_zero 1]
    rfl
  have h2 : runTicks demoAgents demoConfigs (fun _ => (1 : ℚ)/2) 1 =
      [⟨"social_media", "athlete_b", "virality_potential", 0⟩] := by
    simp only [runTicks]
    rw [agentTick_demo_half]
    simp
  rw [h1, h2]
  simp

/-- C1 amended: the update loop is deterministic relative to the explicit
ambient draw stream — a run of `n` ticks reads exactly the first `4*n`
draws, and two runs whose ambient streams agree on those draws emit
identical event sequences, in the same order. -/
theorem c1_deterministic_relative_to_stream (agents : List (String × List OverlayEntry))
    (configs : List OverlayCfg) (s1 s2 : ℕ → ℚ) (n : ℕ)
    (h : ∀ i, i < 4 * n → s1 i = s2 i) :
    runTicks agents configs s1 n = runTicks agents configs s2 n := by
  induction n with
  | zero => rfl
  | succ n ih =>
    have hpre : ∀ i, i < 4 * n → s1 i = s2 i := fun i hi => h i (by omega)
    rw [runTicks, runTicks, ih hpre,
      h (4 * n) (by omega), h (4 * n + 1) (by omega),
      h (4 * n + 2) (by omega), h (4 * n + 3) (by omega)]

/-- Witness for the amended C1: two concrete streams that agree on the four
draws of the single tick produce the same events even though they differ
beyond the consumed prefix. -/
theorem c1_deterministic_relative_to_stream_witness :
    runTicks demoAgents demoConfigs (fun _ => 0) 1 =
      runTicks demoAgents demoConfigs (fun i => if i < 4 then 0 else 9/10) 1 :=
  c1_deterministic_relative_to_stream demoAgents demoConfigs _ _ 1
    (by
      intro i hi
      rw [if_pos (by omega : i < 4)])

/-- C4 fails on the code: over the window of `8 = 2 * 4` consecutive ticks
(two tracked athletes, `k = 4`), the run whose ambient draws are all `0`
updates `athlete_a` every tick and `athlete_b` — a tracked entity — never,
so the per-window no-starvation guarantee does not hold for the random
selection the loop implements. -/
theorem c4_starvation_counterexample :
    countFor "athlete_b" (runTicks demoAgents demoConfigs (fun _ => 0) 8) = 0 := by
  rw [runTicks_demo_zero]
  exact countFor_replicate_ne _ _ 8 (by decide)

/-- C4 amended: the implemented per-tick selection is random, so no window
length gives a starvation-free guarantee — for every window `M` there is an
ambient draw sequence under which the tracked athlete `athlete_b` receives
no update in `M` consecutive ticks. -/
theorem c4_random_selection_allows_starvation (M : ℕ) :
    ∃ s : ℕ → ℚ, countFor "athlete_b" (runTicks demoAgents demoConfigs s M) = 0 :=
  ⟨fun _ => 0, by
    rw [runTicks_demo_zero]
    exact countFor_replicate_ne _ _ M (by decide)⟩

end Valore
